import Mathlib

/-!
# Verification of the AURA execution core (Sequencer and PolicyRouter)

Shallow embedding of `nextis/execution/sequencer.py` and
`nextis/execution/policy_router.py` together with the data contracts they
use (`nextis/api/schemas.py`, `nextis/assembly/models.py`).

Modelling conventions:
* Python floats are modelled as `ℚ`.
* `time.time() * 1000` is modelled by a logical wall clock stored in the
  sequencer record: each read returns the current value and advances it by 1.
* `time.monotonic() * 1000` inside the router is modelled by an oracle
  `mono : ℕ → ℚ` indexed by the number of prior reads in the dispatch.
* Collaborators (primitive library, policy loader, robot, SAC loader,
  verifier, analytics) are oracles supplied in an environment record;
  fallible collaborator calls return `Except String α`, an `error`
  standing for a raised Python exception whose `str()` is the payload.
* Effects that the code performs on collaborators (analytics records,
  state-change emissions, dispatch calls, sleeps) are collected in traces.
-/

namespace Aura

/-- Observation / action dictionaries `map<string, float>`. -/
abbrev Obs := List (String × ℚ)

/-- Opaque primitive parameter payload (`primitive_params: dict | None`);
the router never inspects it, only forwards it. -/
abbrev PParams := List (String × ℚ)

/-- `SuccessCriteria` from `nextis/assembly/models.py`. -/
structure SuccessCriteria where
  type : String
  threshold : Option ℚ := none
  model : Option String := none
  pattern : Option String := none
  deriving Repr, DecidableEq

/-- `AssemblyStep` from `nextis/assembly/models.py`. -/
structure AssemblyStep where
  id : String
  name : String := ""
  part_ids : List String := []
  dependencies : List String := []
  handler : String := "primitive"
  primitive_type : Option String := none
  primitive_params : Option PParams := none
  policy_id : Option String := none
  success_criteria : SuccessCriteria := { type := "position" }
  max_retries : ℕ := 3
  deriving Repr, DecidableEq

/-- `AssemblyGraph` from `nextis/assembly/models.py` (the fields the
execution core reads; `parts`/`contacts` are never touched by it).
`steps` is a Python dict modelled as an association list with unique keys. -/
structure AssemblyGraph where
  id : String
  name : String := ""
  steps : List (String × AssemblyStep) := []
  step_order : List String := []
  deriving Repr, DecidableEq

/-- `StepResult` from `nextis/execution/types.py`.
Modelled from the spec: `nextis/execution/types.py` is not present under
`src/`; the field set and defaults follow spec §3 ("success flag, duration,
which handler actually ran, optional error message, optional measured
force/position, and an ordered sequence of per-tick force/torque samples
(possibly empty)") and every construction site in the two source files. -/
structure StepResult where
  success : Bool
  duration_ms : ℚ
  handler_used : String
  error_message : Option String := none
  actual_force : Option ℚ := none
  actual_position : Option (List ℚ) := none
  force_history : List (List ℚ) := []
  deriving Repr, DecidableEq

/-- `StepRuntimeState` from `nextis/api/schemas.py`. -/
structure StepRuntimeState where
  step_id : String
  status : String := "pending"
  attempt : ℕ := 1
  start_time : Option ℚ := none
  end_time : Option ℚ := none
  duration_ms : Option ℚ := none
  deriving Repr, DecidableEq

/-- `ExecutionState` from `nextis/api/schemas.py`. -/
structure ExecutionState where
  phase : String := "idle"
  assembly_id : Option String := none
  current_step_id : Option String := none
  step_states : List (String × StepRuntimeState) := []
  run_number : ℕ := 0
  start_time : Option ℚ := none
  elapsed_ms : ℚ := 0
  overall_success_rate : ℚ := 0
  deriving Repr, DecidableEq

/-- `ExecutionData` from `nextis/perception/types.py`.
Modelled from the spec: `nextis/perception/types.py` is not present under
`src/`; the fields follow the keyword construction site in
`Sequencer._run` (sequencer.py lines 306-312). -/
structure ExecutionData where
  final_position : Option (List ℚ) := none
  force_history : List ℚ := []
  peak_force : Option ℚ := none
  final_force : ℚ := 0
  duration_ms : ℚ := 0
  deriving Repr, DecidableEq

/-- `VerificationResult` from `nextis/perception/types.py`.
Modelled from the spec: `nextis/perception/types.py` is not present under
`src/`; the fields follow spec §6 (`verify(step, execution_snapshot) ->
{passed, confidence, detail}`). -/
structure VerificationResult where
  passed : Bool
  confidence : ℚ := 0
  detail : String := ""
  deriving Repr, DecidableEq

/-- `SequencerState` from `nextis/execution/sequencer.py`. -/
inductive SequencerState where
  | IDLE | RUNNING | STEP_ACTIVE | STEP_COMPLETE
  | PAUSED | WAITING_FOR_HUMAN | COMPLETE | ERROR
  deriving Repr, DecidableEq

/-- `_PHASE_MAP` from `nextis/execution/sequencer.py`. -/
def phaseMap : SequencerState → String
  | .IDLE => "idle"
  | .RUNNING => "running"
  | .STEP_ACTIVE => "running"
  | .STEP_COMPLETE => "running"
  | .PAUSED => "paused"
  | .WAITING_FOR_HUMAN => "teaching"
  | .COMPLETE => "complete"
  | .ERROR => "error"

/-! ## Python dict operations

Python dicts preserve insertion order; assignment to an existing key
replaces the value in place, assignment to a fresh key appends. -/

/-- `d[k] = v` on a Python dict modelled as an association list. -/
def dictInsert (m : List (String × α)) (k : String) (v : α) : List (String × α) :=
  if m.any (fun p => p.1 = k) then
    m.map (fun p => if p.1 = k then (k, v) else p)
  else m ++ [(k, v)]

/-- Build a dict from a (comprehension-produced) key/value list, later
values for a repeated key overwriting earlier ones. -/
def dictOf (l : List (String × α)) : List (String × α) :=
  l.foldl (fun m p => dictInsert m p.1 p.2) []

/-- `m.get(k)` / `m[k]` lookup. -/
def dictGet (m : List (String × α)) (k : String) : Option α :=
  (m.find? (fun p => p.1 = k)).map Prod.snd

/-! ## PolicyRouter (`nextis/execution/policy_router.py`) -/

/-- Result dictionary returned by `PrimitiveLibrary.run` (spec §6). -/
structure PrimResult where
  success : Bool
  duration_ms : ℚ
  error_message : Option String := none
  actual_force : Option ℚ := none
  actual_position : Option (List ℚ) := none
  force_history : List (List ℚ) := []
  deriving Repr, DecidableEq

/-- A loaded BC policy (`nextis/learning/policy_loader.py` `Policy`):
`chunk_size`, `joint_keys` are checkpoint data; `predict` runs model
inference and may raise. -/
structure Policy where
  chunk_size : ℕ
  joint_keys : List String := []
  predict : Obs → Except String (List (List ℚ))

/-- A loaded SAC agent (`nextis/learning/sac.py` `SACAgent`): deterministic
action selection as used by `_run_rl_policy`. -/
structure SacAgent where
  select_action : List ℚ → List ℚ

/-- Collaborator environment of one `PolicyRouter` instance.  The robot
oracle also stands for the `MockRobot` substituted when no robot is
connected (policy_router.py lines 134-139 and 191-195): in either case the
router only calls `get_observation`/`send_action` on it. -/
structure RouterEnv where
  assembly_id : String := ""
  /-- `PrimitiveLibrary.run(name, robot, params)`; `error` = raised. -/
  prim_run : String → Option PParams → Except String PrimResult
  /-- `PolicyLoader.load(assembly_id, step_id)`; `ok none` = no checkpoint,
  `error` = raised. -/
  policy_load : String → String → Except String (Option Policy)
  /-- `Path("data/policies")/assembly_id/step_id/"policy_rl.pt" .exists()`. -/
  rl_exists : String → String → Bool
  /-- `SACAgent.load(rl_ckpt)` keyed by (assembly_id, step_id). -/
  sac_load : String → String → Except String SacAgent
  /-- `robot.get_observation()`. -/
  robot_obs : Except String Obs
  /-- `robot.send_action(action_dict)`. -/
  robot_send : Obs → Except String Unit
  /-- `obs_to_joints` from `nextis/control/motion_helpers`. -/
  obs_to_joints : Obs → List ℚ
  /-- `joints_to_action` from `nextis/control/motion_helpers`. -/
  joints_to_action : List ℚ → Obs
  /-- `time.monotonic() * 1000`, indexed by the number of prior reads. -/
  mono : ℕ → ℚ

/-- Effects performed by the router: the fixed-rate pacing sleeps
(`await asyncio.sleep(seconds)`). -/
inductive REff where
  | sleep (seconds : ℚ)
  deriving Repr, DecidableEq

/-- Open-loop chunk replay: `for i in range(policy.chunk_size)` in
`PolicyRouter._run_policy`.  `actions[min(i, len(actions) - 1)]` raises
`IndexError` when `actions` is empty (Python index `-1` on `[]`), which the
surrounding `try` folds into a failure. -/
def policyChunkLoop (env : RouterEnv) (keys : List String)
    (actions : List (List ℚ)) : ℕ → ℕ → List REff × Except String Unit
  | _, 0 => ([], .ok ())
  | i, n + 1 =>
    match actions.get? (min i (actions.length - 1)) with
    | none => ([], .error "list index out of range")
    | some action =>
      match env.robot_send (keys.zip action) with
      | .error e => ([], .error e)
      | .ok _ =>
        let rest := policyChunkLoop env keys actions (i + 1) n
        (REff.sleep (1 / 50) :: rest.1, rest.2)

/-- `PolicyRouter._run_policy`.  The `PolicyLoader.load` call sits *outside*
the `try` block (policy_router.py line 113), so an exception raised by the
loader propagates (returned here as `.error`); everything after
`logger.info` is inside the `try` and is folded into a failed result. -/
def runPolicy (env : RouterEnv) (step : AssemblyStep) (start_ms : ℚ) (t : ℕ) :
    List REff × Except String StepResult × ℕ :=
  match env.policy_load env.assembly_id step.id with
  | .error e => ([], .error e, t)
  | .ok none =>
    ([], .ok { success := false
               duration_ms := env.mono t - start_ms
               handler_used := "policy"
               error_message := some ("No trained policy for step " ++ step.id) },
     t + 1)
  | .ok (some policy) =>
    let fail (t : ℕ) (e : String) : List REff × Except String StepResult × ℕ :=
      ([], .ok { success := false
                 duration_ms := env.mono t - start_ms
                 handler_used := "policy"
                 error_message := some e },
       t + 1)
    match env.robot_obs with
    | .error e => fail t e
    | .ok obs =>
      match policy.predict obs with
      | .error e => fail t e
      | .ok actions =>
        let action_keys :=
          if policy.joint_keys ≠ [] then policy.joint_keys
          else List.insertionSort (fun a b => a ≤ b) (obs.map Prod.fst)
        match policyChunkLoop env action_keys actions 0 policy.chunk_size with
        | (effs, .error e) =>
          (effs, .ok { success := false
                       duration_ms := env.mono t - start_ms
                       handler_used := "policy"
                       error_message := some e },
           t + 1)
        | (effs, .ok _) =>
          (effs, .ok { success := true
                       duration_ms := env.mono t - start_ms
                       handler_used := "policy" },
           t + 1)

/-- `PolicyRouter._run_primitive`: empty/missing `primitive_type`
(`if not step.primitive_type`) fails explicitly; the `PrimitiveLibrary.run`
call is inside `try` and a raise is folded into a failed result. -/
def runPrimitive (env : RouterEnv) (step : AssemblyStep) (start_ms : ℚ) (t : ℕ) :
    List REff × Except String StepResult × ℕ :=
  if step.primitive_type = none ∨ step.primitive_type = some "" then
    ([], .ok { success := false
               duration_ms := env.mono t - start_ms
               handler_used := "primitive"
               error_message := some ("Step " ++ step.id ++ " has no primitive_type set") },
     t + 1)
  else
    match env.prim_run ((step.primitive_type).getD "") step.primitive_params with
    | .ok r =>
      ([], .ok { success := r.success
                 duration_ms := r.duration_ms
                 handler_used := "primitive"
                 error_message := r.error_message
                 actual_force := r.actual_force
                 actual_position := r.actual_position
                 force_history := r.force_history },
       t)
    | .error e =>
      ([], .ok { success := false
                 duration_ms := env.mono t - start_ms
                 handler_used := "primitive"
                 error_message := some e },
       t + 1)

/-- Closed-loop RL inference: `for _ in range(max_steps)` in
`PolicyRouter._run_rl_policy` (re-observe, select, send, pace each tick). -/
def rlLoop (env : RouterEnv) (agent : SacAgent) : ℕ → List REff × Except String Unit
  | 0 => ([], .ok ())
  | n + 1 =>
    match env.robot_obs with
    | .error e => ([], .error e)
    | .ok obs =>
      let action := agent.select_action (env.obs_to_joints obs)
      match env.robot_send (env.joints_to_action action) with
      | .error e => ([], .error e)
      | .ok _ =>
        let rest := rlLoop env agent n
        (REff.sleep (1 / 50) :: rest.1, rest.2)

/-- `PolicyRouter._run_rl_policy`: if no RL checkpoint exists, falls back to
`_run_policy` with the same `start_ms`; otherwise loads the SAC agent and
runs 100 closed-loop ticks, folding any raise inside `try` into failure. -/
def runRlPolicy (env : RouterEnv) (step : AssemblyStep) (start_ms : ℚ) (t : ℕ) :
    List REff × Except String StepResult × ℕ :=
  if env.rl_exists env.assembly_id step.id = false then
    runPolicy env step start_ms t
  else
    match env.sac_load env.assembly_id step.id with
    | .error e =>
      ([], .ok { success := false
                 duration_ms := env.mono t - start_ms
                 handler_used := "rl_finetune"
                 error_message := some e },
       t + 1)
    | .ok agent =>
      match rlLoop env agent 100 with
      | (effs, .error e) =>
        (effs, .ok { success := false
                     duration_ms := env.mono t - start_ms
                     handler_used := "rl_finetune"
                     error_message := some e },
         t + 1)
      | (effs, .ok _) =>
        (effs, .ok { success := true
                     duration_ms := env.mono t - start_ms
                     handler_used := "rl_finetune" },
         t + 1)

/-- `PolicyRouter.dispatch`: route on the handler string; an unknown
handler yields an explicit failed result. -/
def dispatchR (env : RouterEnv) (step : AssemblyStep) (t : ℕ) :
    List REff × Except String StepResult × ℕ :=
  let start_ms := env.mono t
  let t := t + 1
  if step.handler = "primitive" then runPrimitive env step start_ms t
  else if step.handler = "policy" then runPolicy env step start_ms t
  else if step.handler = "rl_finetune" then runRlPolicy env step start_ms t
  else
    ([], .ok { success := false
               duration_ms := env.mono t - start_ms
               handler_used := step.handler
               error_message := some ("Unknown handler: " ++ step.handler) },
     t + 1)

/-- `Sequencer._dispatch_step`: in demo mode, sleep 0.3 s and return a
canned success without touching the router. -/
def dispatchStepM (demo : Bool) (env : RouterEnv) (step : AssemblyStep) (t : ℕ) :
    List REff × Except String StepResult × ℕ :=
  if demo then
    ([REff.sleep (3 / 10)],
     .ok { success := true, duration_ms := 300, handler_used := "demo" }, t)
  else dispatchR env step t

/-! ## Sequencer (`nextis/execution/sequencer.py`)

The sequencer is a cooperative single-task state machine.  Its mutable
fields are gathered in `Seq`; the run task `_run` is modelled by pure
functions that thread a `Seq` and produce a trace of externally visible
effects.  The two `asyncio.Event`s are modelled by their is-set booleans
(`pause_set` for `_pause_event`, `human_done` for `_human_done_event`). -/

/-- The mutable state of one `Sequencer` instance. -/
structure Seq where
  graph : AssemblyGraph
  state : SequencerState := .IDLE
  step_index : ℕ := 0
  step_states : List (String × StepRuntimeState) := []
  current_attempt : ℕ := 1
  run_number : ℕ := 0
  start_time : Option ℚ := none
  stop_requested : Bool := false
  pause_set : Bool := true
  human_done : Bool := false
  /-- Logical wall clock: each `time.time() * 1000` read returns this value
  and advances it by 1. -/
  clock : ℚ := 0
  deriving Repr

/-- One `time.time() * 1000` read. -/
def takeTime (s : Seq) : ℚ × Seq :=
  (s.clock, { s with clock := s.clock + 1 })

/-- Externally visible effects of the sequencer. -/
inductive Eff where
  /-- `self._on_state_change(state)` via `_emit` (snapshot attached). -/
  | emit (es : ExecutionState)
  /-- `analytics.record_step_result(assembly_id, step_id, success,
  duration_ms, attempt)`. -/
  | record (assembly_id : String) (step_id : String) (success : Bool)
      (duration_ms : ℚ) (attempt : ℕ)
  /-- One `await self._dispatch_step(step)` call (attempt-tagged). -/
  | dispatchCall (step_id : String) (attempt : ℕ)
  /-- `await asyncio.sleep(0.5)` retry backoff. -/
  | sleepBackoff
  deriving Repr, DecidableEq

/-- `Sequencer.__init__`: fails (raises `AssemblyError`) iff `step_order`
is empty; otherwise all runtime fields start at their defaults. -/
def mkSequencer (graph : AssemblyGraph) : Except String Seq :=
  if graph.step_order = [] then
    .error ("Assembly '" ++ graph.id ++ "' has no steps to execute")
  else
    .ok { graph := graph }

/-- `Sequencer.get_execution_state` with the wall-clock read `now` made
explicit (a pure snapshot of `Seq`). -/
def getExecutionState (now : ℚ) (s : Seq) : ExecutionState :=
  let elapsed := match s.start_time with
    | some st => now - st
    | none => 0
  let current_step_id :=
    if s.state ≠ .IDLE ∧ s.state ≠ .COMPLETE ∧
        s.step_index < s.graph.step_order.length then
      s.graph.step_order.get? s.step_index
    else none
  let completed := (s.step_states.map Prod.snd).countP (fun st => st.status = "success")
  let attempted := (s.step_states.map Prod.snd).countP
    (fun st => st.status = "success" ∨ st.status = "failed")
  let rate : ℚ := if attempted = 0 then 0 else (completed : ℚ) / (attempted : ℚ)
  { phase := phaseMap s.state
    assembly_id := some s.graph.id
    current_step_id := current_step_id
    step_states := s.step_states
    run_number := s.run_number
    start_time := s.start_time
    elapsed_ms := elapsed
    overall_success_rate := rate }

/-- `Sequencer._emit`: snapshot (drawing the wall clock) and push to the
callback; callback faults are swallowed, so the effect is the snapshot. -/
def emit (s : Seq) : Eff × Seq :=
  let (now, s') := takeTime s
  (Eff.emit (getExecutionState now s), s')

/-- A fresh pending `StepRuntimeState(step_id=sid)`. -/
def pendingState (sid : String) : StepRuntimeState := { step_id := sid }

/-- `Sequencer.start`: a logged no-op unless the state is IDLE, COMPLETE or
ERROR; otherwise resets the run fields, re-creates every step state as
pending, moves to RUNNING, emits, and spawns the run task. -/
def startSeq (s : Seq) : List Eff × Seq :=
  if s.state ≠ .IDLE ∧ s.state ≠ .COMPLETE ∧ s.state ≠ .ERROR then
    ([], s)
  else
    let (now, s) := takeTime s
    let s := { s with
      stop_requested := false
      step_index := 0
      current_attempt := 1
      run_number := s.run_number + 1
      start_time := some now
      pause_set := true
      human_done := false
      step_states := dictOf (s.graph.step_order.map (fun sid => (sid, pendingState sid)))
      state := .RUNNING }
    let (e, s) := emit s
    ([e], s)

/-- `Sequencer.pause`: only from STEP_ACTIVE or RUNNING. -/
def pauseSeq (s : Seq) : List Eff × Seq :=
  if s.state ≠ .STEP_ACTIVE ∧ s.state ≠ .RUNNING then ([], s)
  else
    let s := { s with pause_set := false, state := .PAUSED }
    let (e, s) := emit s
    ([e], s)

/-- `Sequencer.resume`: only from PAUSED. -/
def resumeSeq (s : Seq) : List Eff × Seq :=
  if s.state ≠ .PAUSED then ([], s)
  else
    let s := { s with state := .STEP_ACTIVE, pause_set := true }
    let (e, s) := emit s
    ([e], s)

/-- `Sequencer.stop`: valid from any state — sets the stop flag, sets both
events (releasing a pause block and a human-wait block), cancels the run
task (awaiting it with `CancelledError` suppressed), forces IDLE, emits. -/
def stopSeq (s : Seq) : List Eff × Seq :=
  let s := { s with stop_requested := true, pause_set := true, human_done := true }
  let s := { s with state := .IDLE }
  let (e, s) := emit s
  ([e], s)

/-- `Sequencer.complete_human_step(success)`: a logged no-op unless waiting
for a human; otherwise overwrite the current step's runtime state
(success/failed per the flag), record analytics when a store is configured,
and set the human-done event.  `analytics` says whether an analytics store
is configured.  The step-order index read `step_order[step_index]` cannot
fail in WAITING_FOR_HUMAN (the run loop put it in range); the `none` arm
is the unreachable guard for that read. -/
def completeHumanStep (success : Bool) (analytics : Bool) (s : Seq) :
    List Eff × Seq :=
  if s.state ≠ .WAITING_FOR_HUMAN then ([], s)
  else
    match s.graph.step_order.get? s.step_index with
    | none => ([], s)
    | some step_id =>
      let prev_start := (dictGet s.step_states step_id).bind (fun st => st.start_time)
      if success then
        let (now, s) := takeTime s
        let newState : StepRuntimeState :=
          { step_id := step_id
            status := "success"
            attempt := s.current_attempt
            start_time := prev_start
            end_time := some now
            duration_ms := some (now - prev_start.getD now) }
        let s := { s with step_states := dictInsert s.step_states step_id newState }
        let effs := if analytics then
            [Eff.record s.graph.id step_id true ((newState.duration_ms).getD 0)
              s.current_attempt]
          else []
        (effs, { s with human_done := true })
      else
        let (now, s) := takeTime s
        let newState : StepRuntimeState :=
          { step_id := step_id
            status := "failed"
            attempt := s.current_attempt
            start_time := prev_start
            end_time := some now }
        let s := { s with step_states := dictInsert s.step_states step_id newState }
        let effs := if analytics then
            [Eff.record s.graph.id step_id false 0 s.current_attempt]
          else []
        (effs, { s with human_done := true })

/-! ### The run task `Sequencer._run` -/

/-- Oracles the run loop consults: dispatch outcomes (per step and attempt
number, modelling `await self._dispatch_step(step)`), the optional
verifier, and whether an analytics store is configured. -/
structure SeqEnv where
  dispatch : AssemblyStep → ℕ → StepResult
  verifier : Option (AssemblyStep → ExecutionData → VerificationResult) := none
  analytics : Bool := true

/-- Magnitude series: `max(abs(t) for t in tick) if tick else 0.0` per tick
of the force history (sequencer.py lines 302-305). -/
def magnitudes (history : List (List ℚ)) : List ℚ :=
  history.map (fun tick =>
    match tick with
    | [] => 0
    | t :: ts => (ts.map (fun x => |x|)).foldl max |t|)

/-- The `ExecutionData` snapshot built for the verifier
(sequencer.py lines 306-312). -/
def execDataOf (result : StepResult) : ExecutionData :=
  let mags := magnitudes result.force_history
  { final_position := result.actual_position
    force_history := mags
    peak_force := result.actual_force
    final_force := (mags.getLast?).getD 0
    duration_ms := result.duration_ms }

/-- The per-attempt result after the optional verification override: a
dispatch success is downgraded to a failed result when a configured
verifier does not pass (sequencer.py lines 299-320). -/
def effResult (env : SeqEnv) (step : AssemblyStep) (attempt : ℕ) : StepResult :=
  let result := env.dispatch step attempt
  match env.verifier with
  | none => result
  | some v =>
    if result.success then
      let vr := v step (execDataOf result)
      if vr.passed then result
      else
        { success := false
          duration_ms := result.duration_ms
          handler_used := result.handler_used
          error_message := some ("Verification failed: " ++ vr.detail) }
    else result

/-- How one pass of the for-body over a step ends. -/
inductive BodyExit where
  /-- step id missing from `graph.steps`: `continue`. -/
  | skipped
  /-- the retry loop ended with `success = True` via a passing attempt. -/
  | succeeded
  /-- retries exhausted: blocked in WAITING_FOR_HUMAN on the human event. -/
  | escalated
  /-- a stop request was observed inside the retry loop. -/
  | stopped
  /-- the while condition was false with `success = False` (leads to ERROR). -/
  | noSuccess
  /-- blocked on `pause_event.wait()` with no resume in the scenario. -/
  | blockedPause
  deriving Repr, DecidableEq

/-- Outcome of the retry loop / for-body: effect trace, final state, exit. -/
structure LoopOut where
  trace : List Eff
  seq : Seq
  exit : BodyExit
  deriving Repr

/-- Prefix a trace onto a loop outcome. -/
def LoopOut.pre (effs : List Eff) (o : LoopOut) : LoopOut :=
  { o with trace := effs ++ o.trace }

/-- The retry loop of `Sequencer._run` (the `while self._current_attempt <=
max_attempts` loop, sequencer.py lines 291-393), stopping at the
human-wait block.  `fuel` is a structural-recursion bound; it is never
exhausted when called with `fuel ≥ maxAttempts` and `current_attempt = 1`
(each iteration either exits or increments `current_attempt < maxAttempts`). -/
def retryLoop (env : SeqEnv) (sid : String) (step : AssemblyStep)
    (maxAttempts : ℕ) : ℕ → Seq → LoopOut
  | 0, s => { trace := [], seq := s, exit := .noSuccess }
  | fuel + 1, s =>
    if s.current_attempt > maxAttempts then
      { trace := [], seq := s, exit := .noSuccess }
    else if s.pause_set = false then
      { trace := [], seq := s, exit := .blockedPause }
    else if s.stop_requested then
      { trace := [], seq := s, exit := .stopped }
    else
      let result := effResult env step s.current_attempt
      let attemptTrace := [Eff.dispatchCall sid s.current_attempt]
      let recTrace := if env.analytics then
          [Eff.record s.graph.id sid result.success result.duration_ms
            s.current_attempt]
        else []
      if result.success then
        let (now, s') := takeTime s
        let prev_start := (dictGet s'.step_states sid).bind (fun st => st.start_time)
        let s' := { s' with
          step_states := dictInsert s'.step_states sid
            { step_id := sid
              status := "success"
              attempt := s'.current_attempt
              start_time := prev_start
              end_time := some now
              duration_ms := some result.duration_ms }
          state := .STEP_COMPLETE }
        let (e, s') := emit s'
        { trace := attemptTrace ++ recTrace ++ [e], seq := s', exit := .succeeded }
      else if s.current_attempt < maxAttempts then
        let s' := { s with current_attempt := s.current_attempt + 1 }
        let (now, s') := takeTime s'
        let s' := { s' with
          step_states := dictInsert s'.step_states sid
            { step_id := sid
              status := "retrying"
              attempt := s'.current_attempt
              start_time := some now } }
        let (e, s') := emit s'
        (retryLoop env sid step maxAttempts fuel s').pre
          (attemptTrace ++ recTrace ++ [e, Eff.sleepBackoff])
      else
        let prev_start := (dictGet s.step_states sid).bind (fun st => st.start_time)
        let s' := { s with
          step_states := dictInsert s.step_states sid
            { step_id := sid
              status := "human"
              attempt := s.current_attempt
              start_time := prev_start }
          state := .WAITING_FOR_HUMAN }
        let (e, s') := emit s'
        let s' := { s' with human_done := false }
        { trace := attemptTrace ++ recTrace ++ [e], seq := s', exit := .escalated }

/-- The for-body of `Sequencer._run` for one step id at index `i`
(sequencer.py lines 270-393), up to either the end of the retry loop or
the human-wait block. -/
def stepBody (env : SeqEnv) (i : ℕ) (sid : String) (s : Seq) : LoopOut :=
  let s := { s with step_index := i }
  match dictGet s.graph.steps sid with
  | none => { trace := [], seq := s, exit := .skipped }
  | some step =>
    let s := { s with current_attempt := 1 }
    let maxAttempts := step.max_retries + 1
    let (now, s) := takeTime s
    let s := { s with
      step_states := dictInsert s.step_states sid
        { step_id := sid
          status := "running"
          attempt := 1
          start_time := some now }
      state := .STEP_ACTIVE }
    let (e, s) := emit s
    (retryLoop env sid step maxAttempts maxAttempts s).pre [e]

/-- The post-loop tail of `Sequencer._run` (sequencer.py lines 402-406):
move to COMPLETE and emit only if no stop was requested and the loop did
not end in ERROR. -/
def finishRun (s : Seq) : List Eff × Seq :=
  if s.stop_requested = false ∧ s.state ≠ .ERROR then
    let s := { s with state := .COMPLETE }
    let (e, s) := emit s
    ([e], s)
  else ([], s)

/-- The for-loop of `Sequencer._run` from position `i` of `step_order`,
with the environment additionally supplying the human decision
(`complete_human_step(human sid)`) applied while the task is blocked at a
human-wait; the task then resumes, sets `success = True` regardless of the
decision, and proceeds to the next index. -/
def runFrom (env : SeqEnv) (human : String → Bool) :
    List String → ℕ → Seq → List Eff × Seq
  | [], _, s => finishRun s
  | sid :: rest, i, s =>
    if s.stop_requested then finishRun s
    else
      let out := stepBody env i sid s
      match out.exit with
      | .skipped =>
        let (t, s') := runFrom env human rest (i + 1) out.seq
        (out.trace ++ t, s')
      | .succeeded =>
        let (t, s') := runFrom env human rest (i + 1) out.seq
        (out.trace ++ t, s')
      | .escalated =>
        let (t2, s2) := completeHumanStep (human sid) env.analytics out.seq
        if s2.stop_requested then
          let (t3, s3) := finishRun s2
          (out.trace ++ t2 ++ t3, s3)
        else
          let (t3, s3) := runFrom env human rest (i + 1) s2
          (out.trace ++ t2 ++ t3, s3)
      | .stopped =>
        let (t3, s3) := finishRun out.seq
        (out.trace ++ t3, s3)
      | .noSuccess =>
        let s' := { out.seq with state := .ERROR }
        let (e, s') := emit s'
        let (t3, s3) := finishRun s'
        (out.trace ++ [e] ++ t3, s3)
      | .blockedPause => (out.trace, out.seq)

/-! ## Trace classifiers -/

/-- The attempt number of a dispatch-call event for the given step id. -/
def dispatchAttemptOf (sid : String) : Eff → Option ℕ
  | .dispatchCall s a => if s = sid then some a else none
  | _ => none

/-- The (success, duration, attempt) payload of an analytics record for the
given step id. -/
def recordOf (sid : String) : Eff → Option (Bool × ℚ × ℕ)
  | .record _ s success d a => if s = sid then some (success, d, a) else none
  | _ => none

/-- Whether an effect is a state emission whose external phase is
"teaching" (the phase of WAITING_FOR_HUMAN). -/
def isTeachingEmit : Eff → Bool
  | .emit es => es.phase = "teaching"
  | _ => false

@[simp] theorem LoopOut.pre_trace (effs : List Eff) (o : LoopOut) :
    (o.pre effs).trace = effs ++ o.trace := rfl

@[simp] theorem LoopOut.pre_seq (effs : List Eff) (o : LoopOut) :
    (o.pre effs).seq = o.seq := rfl

@[simp] theorem LoopOut.pre_exit (effs : List Eff) (o : LoopOut) :
    (o.pre effs).exit = o.exit := rfl

@[simp] theorem getExecutionState_phase (now : ℚ) (s : Seq) :
    (getExecutionState now s).phase = phaseMap s.state := rfl

/-! ## Helper lemmas on the dict model -/

theorem find?_map_update_self (k : String) (v : α) :
    ∀ m : List (String × α), m.any (fun p => p.1 = k) = true →
      (m.map (fun p => if p.1 = k then (k, v) else p)).find?
        (fun p => p.1 = k) = some (k, v)
  | p :: l, h => by
    by_cases hp : p.1 = k
    · simp [List.find?, hp]
    · simp only [List.map_cons, if_neg hp, List.find?]
      have hd : (decide (p.1 = k)) = false := by simp [hp]
      rw [hd]
      have hl : l.any (fun p => p.1 = k) = true := by
        simp only [List.any_cons, Bool.or_eq_true, decide_eq_true_eq] at h
        rcases h with h | h
        · exact absurd h hp
        · simpa using h
      exact find?_map_update_self k v l hl

theorem find?_map_update_ne (k k' : String) (v : α) (h : k' ≠ k) :
    ∀ m : List (String × α),
      (m.map (fun p => if p.1 = k then (k, v) else p)).find?
        (fun p => p.1 = k') = m.find? (fun p => p.1 = k')
  | [] => rfl
  | p :: l => by
    by_cases hp : p.1 = k
    · have hk : ¬((k : String) = k') := fun hh => h hh.symm
      have hp' : ¬(p.1 = k') := by rw [hp]; exact hk
      simp only [List.map_cons, if_pos hp, List.find?]
      have h1 : (decide ((k, v).1 = k')) = false := by simp [hk]
      have h2 : (decide (p.1 = k')) = false := by simp [hp']
      rw [h1, h2]
      exact find?_map_update_ne k k' v h l
    · simp only [List.map_cons, if_neg hp, List.find?]
      cases hd : (decide (p.1 = k')) with
      | true => rfl
      | false => exact find?_map_update_ne k k' v h l

theorem find?_append_fresh (k : String) (v : α) :
    ∀ m : List (String × α), m.any (fun p => p.1 = k) = false →
      (m ++ [(k, v)]).find? (fun p => p.1 = k) = some (k, v)
  | [], _ => by simp [List.find?]
  | p :: l, h => by
    simp only [List.any_cons, Bool.or_eq_false_iff] at h
    have hp : (decide (p.1 = k)) = false := h.1
    simp only [List.cons_append, List.find?, hp]
    exact find?_append_fresh k v l h.2

theorem find?_append_single_ne (k k' : String) (v : α) (h : k' ≠ k) :
    ∀ m : List (String × α),
      (m ++ [(k, v)]).find? (fun p => p.1 = k') = m.find? (fun p => p.1 = k')
  | [] => by
    have hd : (decide ((k, v).1 = k')) = false := by
      simp only [decide_eq_false_iff_not]
      exact fun hh => h hh.symm
    simp [List.find?, hd]
  | p :: l => by
    simp only [List.cons_append, List.find?]
    cases hd : (decide (p.1 = k')) with
    | true => rfl
    | false => exact find?_append_single_ne k k' v h l

theorem dictGet_dictInsert_self (m : List (String × α)) (k : String) (v : α) :
    dictGet (dictInsert m k v) k = some v := by
  unfold dictInsert dictGet
  by_cases h : m.any (fun p => p.1 = k)
  · rw [if_pos h, find?_map_update_self k v m h]
    rfl
  · rw [if_neg h, find?_append_fresh k v m (by
      rw [Bool.eq_false_iff]
      exact h)]
    rfl

theorem dictGet_dictInsert_ne (m : List (String × α)) (k k' : String) (v : α)
    (h : k' ≠ k) : dictGet (dictInsert m k v) k' = dictGet m k' := by
  unfold dictInsert dictGet
  by_cases hm : m.any (fun p => p.1 = k)
  · rw [if_pos hm, find?_map_update_ne k k' v h m]
  · rw [if_neg hm, find?_append_single_ne k k' v h m]

theorem dictInsert_fresh (m : List (String × α)) (k : String) (v : α)
    (h : m.any (fun p => p.1 = k) = false) :
    dictInsert m k v = m ++ [(k, v)] := by
  unfold dictInsert
  rw [if_neg (by simp [h])]

theorem dictOf_nodup (l : List (String × α)) (h : (l.map Prod.fst).Nodup) :
    dictOf l = l := by
  unfold dictOf
  suffices H : ∀ acc l2 : List (String × α),
      ((acc ++ l2).map Prod.fst).Nodup →
      l2.foldl (fun m p => dictInsert m p.1 p.2) acc = acc ++ l2 by
    simpa using H [] l (by simpa using h)
  intro acc l2
  induction l2 generalizing acc with
  | nil => intro _; simp
  | cons p l2 ih =>
    intro hacc
    have hfresh : acc.any (fun q => q.1 = p.1) = false := by
      by_contra hcon
      rw [Bool.not_eq_false, List.any_eq_true] at hcon
      obtain ⟨q, hq, hq1⟩ := hcon
      simp only [decide_eq_true_eq] at hq1
      rw [List.map_append, List.nodup_append] at hacc
      have hmemL : p.1 ∈ acc.map Prod.fst := List.mem_map.mpr ⟨q, hq, hq1⟩
      have hmemR : p.1 ∈ (p :: l2).map Prod.fst := by simp
      exact hacc.2.2 hmemL hmemR
    simp only [List.foldl_cons]
    rw [dictInsert_fresh acc p.1 p.2 hfresh]
    have heq : (acc ++ [p]) ++ l2 = acc ++ p :: l2 := by simp
    rw [ih (acc ++ [p]) (by rw [heq]; exact hacc)]
    simp

/-! ## Claim theorems: PolicyRouter -/

/-- **C9** — With `demo_mode = True`, `_dispatch_step` bypasses the
PolicyRouter entirely: after a fixed 0.3-second sleep it yields
`StepResult(success=True, duration_ms=300.0, handler_used="demo")`,
regardless of the step's handler, primitive configuration, router
collaborators or checkpoints. -/
theorem demo_mode_dispatch (env : RouterEnv) (step : AssemblyStep) (t : ℕ) :
    dispatchStepM true env step t =
      ([REff.sleep (3 / 10)],
       Except.ok { success := true, duration_ms := 300, handler_used := "demo" },
       t) := rfl

/-- A router environment whose injected policy loader raises on `load`. -/
def throwingLoaderEnv : RouterEnv :=
  { assembly_id := "asm"
    prim_run := fun _ _ => .ok { success := true, duration_ms := 1 }
    policy_load := fun _ _ => .error "loader crashed"
    rl_exists := fun _ _ => false
    sac_load := fun _ _ => .error "no sac checkpoint"
    robot_obs := .ok []
    robot_send := fun _ => .ok ()
    obs_to_joints := fun _ => []
    joints_to_action := fun _ => []
    mono := fun _ => 0 }

/-- A policy-handled step. -/
def policyStep : AssemblyStep := { id := "s1", handler := "policy" }

/-- **C2, counterexample** — `dispatch` is *not* exception-free for every
collaborator behaviour: `PolicyLoader.load` is called outside the `try`
block of `_run_policy` (policy_router.py line 113), so a loader that
throws propagates the exception across `dispatch`'s boundary instead of
folding it into a failed `StepResult`. -/
theorem dispatch_raises_on_throwing_loader :
    (dispatchR throwingLoaderEnv policyStep 0).2.1 =
      Except.error "loader crashed" := by
  rfl

/-- **C2, amended** — `dispatch(step)` never raises and folds every
internal fault into a failed `StepResult`, *provided the injected policy
loader's `load` returns normally*: (i) under that assumption every
dispatch returns a `StepResult`; faults raised (ii) by the primitive
library, (iii) inside BC-policy inference, and (iv) inside RL inference
are each folded into a returned failed `StepResult` carrying the
exception text. -/
theorem dispatch_total_when_loader_ok (env : RouterEnv)
    (hload : ∀ a sid, ∃ v, env.policy_load a sid = .ok v) :
    (∀ step t, ∃ r, (dispatchR env step t).2.1 = Except.ok r) ∧
    (∀ step t e pt, step.handler = "primitive" → step.primitive_type = some pt →
      pt ≠ "" → env.prim_run pt step.primitive_params = .error e →
      ∃ d, (dispatchR env step t).2.1 =
        Except.ok { success := false, duration_ms := d,
                    handler_used := "primitive", error_message := some e }) ∧
    (∀ step t e policy, step.handler = "policy" →
      env.policy_load env.assembly_id step.id = .ok (some policy) →
      env.robot_obs = .error e →
      ∃ d, (dispatchR env step t).2.1 =
        Except.ok { success := false, duration_ms := d,
                    handler_used := "policy", error_message := some e }) ∧
    (∀ step t e, step.handler = "rl_finetune" →
      env.rl_exists env.assembly_id step.id = true →
      env.sac_load env.assembly_id step.id = .error e →
      ∃ d, (dispatchR env step t).2.1 =
        Except.ok { success := false, duration_ms := d,
                    handler_used := "rl_finetune", error_message := some e }) := by
  have hPolicyOk : ∀ step start t, ∃ r,
      (runPolicy env step start t).2.1 = Except.ok r := by
    intro step start t
    unfold runPolicy
    obtain ⟨v, hv⟩ := hload env.assembly_id step.id
    rw [hv]
    match v with
    | none => exact ⟨_, rfl⟩
    | some policy =>
      cases hobs : env.robot_obs with
      | error e => exact ⟨_, rfl⟩
      | ok obs =>
        dsimp only
        cases hpred : policy.predict obs with
        | error e => exact ⟨_, rfl⟩
        | ok actions =>
          dsimp only
          cases hloop : policyChunkLoop env
              (if policy.joint_keys ≠ [] then policy.joint_keys
               else List.insertionSort (fun a b => a ≤ b) (obs.map Prod.fst))
              actions 0 policy.chunk_size with
          | mk effs res =>
            cases res with
            | error e => exact ⟨_, rfl⟩
            | ok u => exact ⟨_, rfl⟩
  refine ⟨?_, ?_, ?_, ?_⟩
  · intro step t
    unfold dispatchR
    by_cases h1 : step.handler = "primitive"
    · simp only [h1, if_true]
      unfold runPrimitive
      by_cases h2 : step.primitive_type = none ∨ step.primitive_type = some ""
      · rw [if_pos h2]; exact ⟨_, rfl⟩
      · rw [if_neg h2]
        cases env.prim_run ((step.primitive_type).getD "") step.primitive_params with
        | ok r => exact ⟨_, rfl⟩
        | error e => exact ⟨_, rfl⟩
    · simp only [h1, if_false]
      by_cases h2 : step.handler = "policy"
      · simp only [h2, if_true]
        exact hPolicyOk step (env.mono t) (t + 1)
      · simp only [h2, if_false]
        by_cases h3 : step.handler = "rl_finetune"
        · simp only [h3, if_true]
          unfold runRlPolicy
          by_cases h4 : env.rl_exists env.assembly_id step.id = false
          · rw [if_pos h4]
            exact hPolicyOk step (env.mono t) (t + 1)
          · rw [if_neg h4]
            cases env.sac_load env.assembly_id step.id with
            | error e => exact ⟨_, rfl⟩
            | ok agent =>
              dsimp only
              cases hloop : rlLoop env agent 100 with
              | mk effs res =>
                cases res with
                | error e => exact ⟨_, rfl⟩
                | ok u => exact ⟨_, rfl⟩
        · simp only [h3, if_false]
          exact ⟨_, rfl⟩
  · intro step t e pt h1 h2 h3 h4
    unfold dispatchR runPrimitive
    have hne : ¬(step.primitive_type = none ∨ step.primitive_type = some "") := by
      rw [h2]
      rintro (h | h)
      · exact Option.noConfusion h
      · injection h with h'
        exact h3 h'
    rw [if_pos h1, if_neg hne]
    rw [h2]
    simp only [Option.getD_some]
    rw [h4]
    exact ⟨_, rfl⟩
  · intro step t e policy h1 h2 h3
    unfold dispatchR runPolicy
    have hnp : ¬step.handler = "primitive" := by rw [h1]; decide
    rw [if_neg hnp, if_pos h1, h2, h3]
    exact ⟨_, rfl⟩
  · intro step t e h1 h2 h3
    unfold dispatchR runRlPolicy
    have hnp : ¬step.handler = "primitive" := by rw [h1]; decide
    have hnq : ¬step.handler = "policy" := by rw [h1]; decide
    rw [if_neg hnp, if_neg hnq, if_pos h1]
    rw [if_neg (by rw [h2]; decide), h3]
    exact ⟨_, rfl⟩

/-- Closed witness for `dispatch_total_when_loader_ok`: a loader that
always reports "no checkpoint" satisfies the hypothesis, and the
conclusion holds at a concrete env. -/
theorem dispatch_total_when_loader_ok_witness :
    ∃ r, (dispatchR { throwingLoaderEnv with policy_load := fun _ _ => .ok none }
            policyStep 0).2.1 = Except.ok r :=
  (dispatch_total_when_loader_ok
    { throwingLoaderEnv with policy_load := fun _ _ => .ok none }
    (fun _ _ => ⟨none, rfl⟩)).1 policyStep 0

/-- **C5** — `handler = rl_finetune` with no RL checkpoint is not a
failure: `_run_rl_policy` falls back to `_run_policy` with the same
arguments, so (i) the two runs are literally equal, (ii) `dispatch` on the
step equals `dispatch` on the same step with `handler = "policy"`, and
(iii) when no BC checkpoint exists either, the result is the explicit
`"No trained policy for step <id>"` failure from the policy path. -/
theorem rl_fallback_to_policy (env : RouterEnv) (step : AssemblyStep)
    (start_ms : ℚ) (t : ℕ)
    (hrl : env.rl_exists env.assembly_id step.id = false) :
    runRlPolicy env step start_ms t = runPolicy env step start_ms t ∧
    (step.handler = "rl_finetune" →
      dispatchR env step t = dispatchR env { step with handler := "policy" } t) ∧
    (env.policy_load env.assembly_id step.id = .ok none →
      (runRlPolicy env step start_ms t).2.1 =
        Except.ok { success := false
                    duration_ms := env.mono t - start_ms
                    handler_used := "policy"
                    error_message :=
                      some ("No trained policy for step " ++ step.id) }) := by
  have hfall : runRlPolicy env step start_ms t = runPolicy env step start_ms t := by
    unfold runRlPolicy
    rw [if_pos hrl]
  refine ⟨hfall, ?_, ?_⟩
  · intro hh
    unfold dispatchR
    have hnp : ¬step.handler = "primitive" := by rw [hh]; decide
    have hnq : ¬step.handler = "policy" := by rw [hh]; decide
    rw [if_neg hnp, if_neg hnq, if_pos hh]
    simp only [if_pos rfl]
    show runRlPolicy env step (env.mono t) (t + 1) = runPolicy env _ (env.mono t) (t + 1)
    unfold runRlPolicy
    rw [if_pos hrl]
    rfl
  · intro hno
    rw [hfall]
    unfold runPolicy
    rw [hno]

/-- Closed witness for `rl_fallback_to_policy` at a concrete environment
with neither an RL nor a BC checkpoint. -/
theorem rl_fallback_to_policy_witness :
    (runRlPolicy { throwingLoaderEnv with policy_load := fun _ _ => .ok none }
        { id := "s1", handler := "rl_finetune" } 0 0).2.1 =
      Except.ok { success := false
                  duration_ms := 0
                  handler_used := "policy"
                  error_message := some "No trained policy for step s1" } := by
  have h := (rl_fallback_to_policy
    { throwingLoaderEnv with policy_load := fun _ _ => .ok none }
    { id := "s1", handler := "rl_finetune" } 0 0 rfl).2.2 rfl
  simpa using h

/-! ## Claim theorems: Sequencer snapshots and lifecycle commands -/

/-- **C10** — In every `get_execution_state()` snapshot the overall success
rate is (#steps with status "success") / (#steps with status "success" or
"failed"), and 0 when that denominator is 0; adding a step in any of the
statuses "pending", "running", "retrying" or "human" leaves the rate
unchanged, so a step waiting for a human does not lower the reported rate. -/
theorem overall_success_rate_formula (now : ℚ) (s : Seq) :
    ((getExecutionState now s).overall_success_rate =
      (if ((s.step_states.map Prod.snd).countP
            (fun st => st.status = "success" ∨ st.status = "failed")) = 0 then 0
       else ((s.step_states.map Prod.snd).countP
              (fun st => st.status = "success") : ℚ) /
            ((s.step_states.map Prod.snd).countP
              (fun st => st.status = "success" ∨ st.status = "failed") : ℚ))) ∧
    (∀ sid st, (st.status = "pending" ∨ st.status = "running" ∨
        st.status = "retrying" ∨ st.status = "human") →
      s.step_states.any (fun p => p.1 = sid) = false →
      (getExecutionState now
          { s with step_states := dictInsert s.step_states sid st }
        ).overall_success_rate =
      (getExecutionState now s).overall_success_rate) := by
  constructor
  · rfl
  · intro sid st hstat hfresh
    have h1 : (decide (st.status = "success" ∨ st.status = "failed")) = false := by
      rcases hstat with h | h | h | h <;> simp [h]
    have h2 : (decide (st.status = "success")) = false := by
      rcases hstat with h | h | h | h <;> simp [h]
    have h3 : (decide (st.status = "success") || decide (st.status = "failed")) = false := by
      rcases hstat with h | h | h | h <;> simp [h]
    have h4 : ¬st.status = "failed" := by
      rcases hstat with h | h | h | h <;> simp [h]
    have h5 : ¬st.status = "success" := by
      rcases hstat with h | h | h | h <;> simp [h]
    rw [dictInsert_fresh _ _ _ hfresh]
    have hcond : (List.map Prod.snd (s.step_states ++ [(sid, st)])) =
        List.map Prod.snd s.step_states ++ [st] := by simp
    unfold getExecutionState
    simp only [hcond, List.countP_append, List.countP_cons, List.countP_nil, h1, h2, h3]
    simp

/-- Closed witness for `overall_success_rate_formula`: one success, one
failure and one "human" step give rate 1/2, unchanged by the human step. -/
theorem overall_success_rate_formula_witness :
    (getExecutionState 5
        { graph := { id := "asm" }
          step_states :=
            dictInsert
              [("a", { step_id := "a", status := "success" }),
               ("b", { step_id := "b", status := "failed" })]
              "c" { step_id := "c", status := "human" } }
      ).overall_success_rate =
    (getExecutionState 5
        { graph := { id := "asm" }
          step_states :=
            [("a", { step_id := "a", status := "success" }),
             ("b", { step_id := "b", status := "failed" })] }
      ).overall_success_rate := by
  exact (overall_success_rate_formula 5
    { graph := { id := "asm" }
      step_states :=
        [("a", { step_id := "a", status := "success" }),
         ("b", { step_id := "b", status := "failed" })] }).2
    "c" { step_id := "c", status := "human" }
    (by simp) (by decide)

/-- **C6** — Constructing a `Sequencer` fails iff `step_order` is empty,
and for a graph with non-empty (duplicate-free, per the documented graph
invariant) `step_order`, immediately after `start()` the step-state map has
exactly one entry per entry of `step_order`, each with status pending. -/
theorem sequencer_construction (g : AssemblyGraph) :
    ((∃ s, mkSequencer g = .ok s) ↔ g.step_order ≠ []) ∧
    (∀ s, mkSequencer g = .ok s → g.step_order.Nodup →
      ((startSeq s).2.step_states.map Prod.fst = g.step_order ∧
       (startSeq s).2.step_states.length = g.step_order.length ∧
       ∀ p ∈ (startSeq s).2.step_states, p.2 = pendingState p.1)) := by
  constructor
  · constructor
    · rintro ⟨s, hs⟩ hemp
      unfold mkSequencer at hs
      rw [if_pos hemp] at hs
      exact Except.noConfusion hs
    · intro hne
      exact ⟨_, by unfold mkSequencer; rw [if_neg hne]⟩
  · intro s hs hnd
    unfold mkSequencer at hs
    by_cases hemp : g.step_order = []
    · rw [if_pos hemp] at hs
      exact Except.noConfusion hs
    · rw [if_neg hemp] at hs
      injection hs with hs
      subst hs
      have hguard : ¬(SequencerState.IDLE ≠ SequencerState.IDLE ∧
          SequencerState.IDLE ≠ SequencerState.COMPLETE ∧
          SequencerState.IDLE ≠ SequencerState.ERROR) := by
        intro hcon
        exact hcon.1 rfl
      have hmapfst : ∀ l : List String,
          (l.map (fun sid => (sid, pendingState sid))).map Prod.fst = l := by
        intro l
        induction l with
        | nil => rfl
        | cons a l ih => simpa using ih
      have hdict : dictOf (g.step_order.map (fun sid => (sid, pendingState sid)))
          = g.step_order.map (fun sid => (sid, pendingState sid)) :=
        dictOf_nodup _ (by rw [hmapfst]; exact hnd)
      unfold startSeq
      rw [if_neg hguard]
      dsimp only [takeTime, emit]
      rw [hdict]
      refine ⟨hmapfst _, by simp, ?_⟩
      intro p hp
      obtain ⟨sid, _, rfl⟩ := List.mem_map.mp hp
      rfl

/-- Closed witness for `sequencer_construction` on a concrete two-step
graph. -/
theorem sequencer_construction_witness :
    ((∃ s, mkSequencer { id := "asm", step_order := ["a", "b"] } = .ok s) ↔
      (["a", "b"] : List String) ≠ []) ∧
    (∀ s, mkSequencer { id := "asm", step_order := ["a", "b"] } = .ok s →
      (startSeq s).2.step_states.map Prod.fst = ["a", "b"]) := by
  have h := sequencer_construction { id := "asm", step_order := ["a", "b"] }
  exact ⟨h.1, fun s hs => (h.2 s hs (by decide)).1⟩

/-- **C7** — `stop()` from RUNNING, STEP_ACTIVE, PAUSED or
WAITING_FOR_HUMAN never raises (it is a total function here), always ends
with external phase "idle", and releases both the pause block and the
human-wait block (both events set); moreover any retry-loop iteration
entered with the stop flag set and the pause event released performs no
dispatch and exits immediately, so the released run task terminates at its
next suspension point (the task is additionally cancelled by `stop()`). -/
theorem stop_forces_idle (s : Seq)
    (h : s.state = .RUNNING ∨ s.state = .STEP_ACTIVE ∨ s.state = .PAUSED ∨
      s.state = .WAITING_FOR_HUMAN) :
    (stopSeq s).2.state = .IDLE ∧
    (stopSeq s).2.pause_set = true ∧
    (stopSeq s).2.human_done = true ∧
    (stopSeq s).2.stop_requested = true ∧
    (∃ es, (stopSeq s).1 = [Eff.emit es] ∧ es.phase = "idle") ∧
    (∀ env sid step m fuel s2, s2.pause_set = true → s2.stop_requested = true →
      s2.current_attempt ≤ m →
      (retryLoop env sid step m (fuel + 1) s2).exit = .stopped ∧
      (retryLoop env sid step m (fuel + 1) s2).trace = []) := by
  refine ⟨rfl, rfl, rfl, rfl, ⟨_, rfl, rfl⟩, ?_⟩
  intro env sid step m fuel s2 hp hstop hle
  have hgt : ¬s2.current_attempt > m := by omega
  have hpf : ¬s2.pause_set = false := by simp [hp]
  simp only [retryLoop, if_neg hgt, hpf, if_false, if_neg hpf, hstop, if_true]
  exact ⟨rfl, rfl⟩

/-- Closed witness for `stop_forces_idle` at a concrete paused sequencer. -/
theorem stop_forces_idle_witness :
    (stopSeq { graph := { id := "asm", step_order := ["a"] },
               state := .PAUSED }).2.state = SequencerState.IDLE :=
  (stop_forces_idle { graph := { id := "asm", step_order := ["a"] },
                      state := .PAUSED } (Or.inr (Or.inr (Or.inl rfl)))).1

/-- A one-step demo graph used in concrete scenarios. -/
def demoGraph : AssemblyGraph :=
  { id := "asm"
    steps := [("s1", { id := "s1" })]
    step_order := ["s1"] }

/-- A sequencer stranded in the terminal ERROR state. -/
def erroredSeq : Seq := { graph := demoGraph, state := .ERROR, run_number := 3 }

/-- **C8, counterexample** — `start()` issued in ERROR *without* a
preceding `stop()` does begin a new run: ERROR is in `start`'s admitted
set `(IDLE, COMPLETE, ERROR)` (sequencer.py line 120), so the guard
passes, the run counter increments and the state machine moves to
RUNNING with all step states reset to pending. -/
theorem start_in_error_begins_run :
    (startSeq erroredSeq).2.state = SequencerState.RUNNING ∧
    (startSeq erroredSeq).2.run_number = 4 ∧
    (startSeq erroredSeq).2.step_states = [("s1", pendingState "s1")] :=
  ⟨rfl, rfl, rfl⟩

/-- **C8, amended** — After an unhandled fault moves the Sequencer to the
terminal ERROR state, an explicit `start()` alone recovers: called in
ERROR it begins a new run (state RUNNING, run counter incremented, stop
flag cleared, step index reset, step states re-created); no preceding
`stop()` is required. -/
theorem start_recovers_from_error (s : Seq) (h : s.state = .ERROR) :
    (startSeq s).2.state = .RUNNING ∧
    (startSeq s).2.run_number = s.run_number + 1 ∧
    (startSeq s).2.stop_requested = false ∧
    (startSeq s).2.step_index = 0 ∧
    (startSeq s).2.step_states =
      dictOf (s.graph.step_order.map (fun sid => (sid, pendingState sid))) := by
  have hguard : ¬(s.state ≠ SequencerState.IDLE ∧
      s.state ≠ SequencerState.COMPLETE ∧ s.state ≠ SequencerState.ERROR) := by
    intro hcon
    exact hcon.2.2 h
  unfold startSeq
  rw [if_neg hguard]
  exact ⟨rfl, rfl, rfl, rfl, rfl⟩

/-- Closed witness for `start_recovers_from_error` at `erroredSeq`. -/
theorem start_recovers_from_error_witness :
    (startSeq erroredSeq).2.run_number = erroredSeq.run_number + 1 :=
  (start_recovers_from_error erroredSeq rfl).2.1

/-! ## The all-attempts-fail run of the retry loop -/

/-- Master lemma: starting the retry loop at attempt `a` with every
remaining effective attempt failing, the loop walks attempts `a..m`,
records each one, and ends blocked in WAITING_FOR_HUMAN. -/
theorem retryLoop_allFail (env : SeqEnv) (sid : String) (step : AssemblyStep)
    (m : ℕ) : ∀ fuel a s, s.current_attempt = a → 1 ≤ a → a ≤ m →
    m < fuel + a → s.pause_set = true → s.stop_requested = false →
    s.state = .STEP_ACTIVE →
    (∀ k, a ≤ k → k ≤ m → (effResult env step k).success = false) →
    (retryLoop env sid step m fuel s).exit = .escalated ∧
    (retryLoop env sid step m fuel s).seq.state = .WAITING_FOR_HUMAN ∧
    (retryLoop env sid step m fuel s).seq.current_attempt = m ∧
    (retryLoop env sid step m fuel s).seq.pause_set = true ∧
    (retryLoop env sid step m fuel s).seq.stop_requested = false ∧
    (retryLoop env sid step m fuel s).seq.human_done = false ∧
    (retryLoop env sid step m fuel s).seq.graph = s.graph ∧
    (retryLoop env sid step m fuel s).seq.step_index = s.step_index ∧
    (retryLoop env sid step m fuel s).seq.run_number = s.run_number ∧
    (retryLoop env sid step m fuel s).seq.start_time = s.start_time ∧
    (∃ ts, dictGet (retryLoop env sid step m fuel s).seq.step_states sid =
      some { step_id := sid, status := "human", attempt := m, start_time := ts }) ∧
    (∀ sid2, sid2 ≠ sid →
      dictGet (retryLoop env sid step m fuel s).seq.step_states sid2 =
        dictGet s.step_states sid2) ∧
    ((retryLoop env sid step m fuel s).trace.filterMap (dispatchAttemptOf sid) =
      List.range' a (m + 1 - a)) ∧
    (env.analytics = true →
      (retryLoop env sid step m fuel s).trace.filterMap (recordOf sid) =
        (List.range' a (m + 1 - a)).map
          (fun k => (false, (effResult env step k).duration_ms, k))) ∧
    (∃ pre es, (retryLoop env sid step m fuel s).trace = pre ++ [Eff.emit es] ∧
      es.phase = "teaching" ∧ pre.countP isTeachingEmit = 0) := by
  intro fuel
  induction fuel with
  | zero =>
    intro a s ha h1 ham hfuel hps hsr hstate hfail
    omega
  | succ fuel ih =>
    intro a s ha h1 ham hfuel hps hsr hstate hfail
    have hgt : ¬s.current_attempt > m := by omega
    have hpf : ¬s.pause_set = false := by simp [hps]
    have hsf : ¬s.stop_requested = true := by simp [hsr]
    have hfa : (effResult env step s.current_attempt).success = false := by
      rw [ha]
      exact hfail a le_rfl ham
    by_cases hlt : s.current_attempt < m
    · -- retry branch: recurse at attempt a + 1
      have hrange : m + 1 - a = (m - a) + 1 := by omega
      simp only [retryLoop, if_neg hgt, if_neg hpf, if_neg hsf, hfa,
        Bool.false_eq_true, if_false, if_pos hlt, takeTime, emit,
        LoopOut.pre_trace, LoopOut.pre_seq, LoopOut.pre_exit]
      obtain ⟨Hexit, Hstate, Hatt, Hpause, Hstop, Hhuman, Hgraph, Hidx, Hrun,
        Hstart, ⟨ts, Hself⟩, Hother, Hdisp, Hrec, pre, es, Htr, Hes, Hpre⟩ :=
        ih (a + 1)
          { s with
            current_attempt := s.current_attempt + 1
            clock := s.clock + 1 + 1
            step_states := dictInsert s.step_states sid
              { step_id := sid
                status := "retrying"
                attempt := s.current_attempt + 1
                start_time := some s.clock } }
          (by simp [ha]) (by omega) (by omega) (by omega) hps hsr hstate
          (fun k hk1 hk2 => hfail k (by omega) hk2)
      refine ⟨Hexit, Hstate, Hatt, Hpause, Hstop, Hhuman, Hgraph, Hidx, Hrun,
        Hstart, ⟨ts, Hself⟩, ?_, ?_, ?_, ?_⟩
      · intro sid2 hne
        rw [Hother sid2 hne]
        exact dictGet_dictInsert_ne _ _ _ _ hne
      · rw [List.filterMap_append, Hdisp, hrange]
        cases hana : env.analytics <;>
          simp [dispatchAttemptOf, List.range', ha]
      · intro hana
        rw [List.filterMap_append, Hrec hana, hrange]
        simp [recordOf, hana, List.range', ha, hfa]
      · rw [Htr]
        refine ⟨_, es, by rw [← List.append_assoc], Hes, ?_⟩
        rw [List.countP_append, Hpre]
        cases hana : env.analytics <;>
          simp [isTeachingEmit, hana, hstate, phaseMap]
    · -- escalation branch: a = m
      have ham' : s.current_attempt = m := by omega
      simp only [retryLoop, if_neg hgt, if_neg hpf, if_neg hsf, hfa,
        Bool.false_eq_true, if_false, if_neg hlt, takeTime, emit]
      refine ⟨trivial, trivial, ham', hps, hsr, trivial, trivial, trivial,
        trivial, trivial, ?_, ?_, ?_, ?_, ?_⟩
      · refine ⟨(dictGet s.step_states sid).bind (fun st => st.start_time), ?_⟩
        rw [dictGet_dictInsert_self]
        rw [ham']
      · intro sid2 hne
        exact dictGet_dictInsert_ne _ _ _ _ hne
      · have : m + 1 - a = 1 := by omega
        rw [this]
        cases hana : env.analytics <;>
          simp [dispatchAttemptOf, recordOf, List.range', ha, ham']
      · intro hana
        have : m + 1 - a = 1 := by omega
        rw [this]
        simp [recordOf, dispatchAttemptOf, hana, List.range', ha, ham', hfa]
      · refine ⟨_, _, rfl, by simp [phaseMap], ?_⟩
        cases hana : env.analytics <;> simp [isTeachingEmit, hana]

/-- **C1** — For a step with `max_retries = N` whose every dispatch (or its
verification) fails, one pass of the run loop over that step performs
exactly `N + 1` dispatch attempts (numbered `1..N+1`), makes exactly
`N + 1` `record_step_result` calls for that step — the k-th tagged with
attempt number `k` — and only after the `(N+1)`-th failed attempt emits the
single transition to WAITING_FOR_HUMAN, as the final effect of the pass. -/
theorem retry_exhaustion_escalates (env : SeqEnv) (sid : String)
    (step : AssemblyStep) (i : ℕ) (s : Seq)
    (hstep : dictGet s.graph.steps sid = some step)
    (hps : s.pause_set = true) (hsr : s.stop_requested = false)
    (hana : env.analytics = true)
    (hfail : ∀ k ∈ List.range' 1 (step.max_retries + 1),
      (effResult env step k).success = false) :
    (stepBody env i sid s).exit = .escalated ∧
    (stepBody env i sid s).seq.state = .WAITING_FOR_HUMAN ∧
    ((stepBody env i sid s).trace.filterMap (dispatchAttemptOf sid) =
      List.range' 1 (step.max_retries + 1)) ∧
    ((stepBody env i sid s).trace.filterMap (recordOf sid) =
      (List.range' 1 (step.max_retries + 1)).map
        (fun k => (false, (effResult env step k).duration_ms, k))) ∧
    (∃ pre es, (stepBody env i sid s).trace = pre ++ [Eff.emit es] ∧
      es.phase = "teaching" ∧ pre.countP isTeachingEmit = 0) := by
  have hbody : stepBody env i sid s =
      (retryLoop env sid step (step.max_retries + 1) (step.max_retries + 1)
        { s with
          step_index := i
          current_attempt := 1
          clock := s.clock + 1 + 1
          step_states := dictInsert s.step_states sid
            { step_id := sid
              status := "running"
              attempt := 1
              start_time := some s.clock }
          state := .STEP_ACTIVE }).pre
        [Eff.emit (getExecutionState (s.clock + 1)
          { s with
            step_index := i
            current_attempt := 1
            clock := s.clock + 1
            step_states := dictInsert s.step_states sid
              { step_id := sid
                status := "running"
                attempt := 1
                start_time := some s.clock }
            state := .STEP_ACTIVE })] := by
    unfold stepBody
    dsimp only
    rw [hstep]
    rfl
  obtain ⟨Hexit, Hstate, _, _, _, _, _, _, _, _, _, _, Hdisp, Hrec, pre, es,
      Htr, Hes, Hpre⟩ :=
    retryLoop_allFail env sid step (step.max_retries + 1)
      (step.max_retries + 1) 1
      { s with
        step_index := i
        current_attempt := 1
        clock := s.clock + 1 + 1
        step_states := dictInsert s.step_states sid
          { step_id := sid
            status := "running"
            attempt := 1
            start_time := some s.clock }
        state := .STEP_ACTIVE }
      rfl le_rfl (by omega) (by omega) hps hsr rfl
      (fun k hk1 hk2 => hfail k (by rw [List.mem_range'_1]; omega))
  rw [hbody]
  refine ⟨by simpa using Hexit, by simpa using Hstate, ?_, ?_, ?_⟩
  · rw [LoopOut.pre_trace, List.filterMap_append]
    simpa [dispatchAttemptOf] using Hdisp
  · rw [LoopOut.pre_trace, List.filterMap_append]
    simpa [recordOf] using Hrec hana
  · rw [LoopOut.pre_trace, Htr]
    refine ⟨_, es, by rw [← List.append_assoc], Hes, ?_⟩
    rw [List.countP_append, Hpre]
    simp [isTeachingEmit, phaseMap]

/-- Closed witness for `retry_exhaustion_escalates`: a one-step assembly
with `max_retries = 1` whose dispatch always fails makes attempts 1 and 2,
records both, and then escalates. -/
theorem retry_exhaustion_escalates_witness :
    (stepBody
        { dispatch := fun _ _ =>
            { success := false, duration_ms := 1, handler_used := "primitive" }
          verifier := none
          analytics := true }
        0 "s1"
        { graph :=
            { id := "asm"
              steps := [("s1", { id := "s1", max_retries := 1 })]
              step_order := ["s1"] } }).exit = BodyExit.escalated ∧
    ((stepBody
        { dispatch := fun _ _ =>
            { success := false, duration_ms := 1, handler_used := "primitive" }
          verifier := none
          analytics := true }
        0 "s1"
        { graph :=
            { id := "asm"
              steps := [("s1", { id := "s1", max_retries := 1 })]
              step_order := ["s1"] } }).trace.filterMap (dispatchAttemptOf "s1")
      = [1, 2]) := by
  have h := retry_exhaustion_escalates
    { dispatch := fun _ _ =>
        { success := false, duration_ms := 1, handler_used := "primitive" }
      verifier := none
      analytics := true }
    "s1" { id := "s1", max_retries := 1 } 0
    { graph :=
        { id := "asm"
          steps := [("s1", { id := "s1", max_retries := 1 })]
          step_order := ["s1"] } }
    (by rfl) rfl rfl rfl (by decide)
  exact ⟨h.1, by simpa [List.range'] using h.2.2.1⟩

/-- **C3** — A verification failure is handled exactly like a dispatch
failure: (i) the retry loop driven by a dispatch oracle plus a configured
verifier is *equal*, trace and all, to the loop driven by the
verification-overridden per-attempt result with no verifier — so a
verification failure consumes the same retry counter and triggers retry or
human escalation by the same rule as a primary dispatch failure; and (ii)
when a dispatch attempt succeeds but the configured verifier does not
pass, the per-attempt result recorded for the current attempt is a failure
carrying the `"Verification failed: <detail>"` message. -/
theorem verification_failure_is_dispatch_failure (env : SeqEnv)
    (sid : String) (step : AssemblyStep) :
    (∀ m fuel s, retryLoop env sid step m fuel s =
      retryLoop
        { dispatch := fun st k => effResult env st k
          verifier := none
          analytics := env.analytics } sid step m fuel s) ∧
    (∀ k v, env.verifier = some v → (env.dispatch step k).success = true →
      (v step (execDataOf (env.dispatch step k))).passed = false →
      effResult env step k =
        { success := false
          duration_ms := (env.dispatch step k).duration_ms
          handler_used := (env.dispatch step k).handler_used
          error_message := some ("Verification failed: " ++
            (v step (execDataOf (env.dispatch step k))).detail) }) := by
  constructor
  · intro m fuel
    induction fuel with
    | zero => intro s; rfl
    | succ fuel ih =>
      intro s
      simp only [retryLoop]
      rw [ih]
      rfl
  · intro k v hv hsucc hpassed
    unfold effResult
    rw [hv]
    dsimp only
    rw [hsucc]
    simp only [if_true]
    rw [hpassed]
    simp

/-- Closed witness for `verification_failure_is_dispatch_failure`: a
dispatch success overridden by a failing verifier yields the explicit
verification-failure result, and the loop equality holds at a concrete
state. -/
theorem verification_failure_is_dispatch_failure_witness :
    effResult
      { dispatch := fun _ _ =>
          { success := true, duration_ms := 7, handler_used := "primitive" }
        verifier := some (fun _ _ =>
          { passed := false, confidence := 1, detail := "force too low" })
        analytics := true }
      { id := "s1" } 1 =
      { success := false
        duration_ms := 7
        handler_used := "primitive"
        error_message := some "Verification failed: force too low" } := by
  have h := (verification_failure_is_dispatch_failure
    { dispatch := fun _ _ =>
        { success := true, duration_ms := 7, handler_used := "primitive" }
      verifier := some (fun _ _ =>
        { passed := false, confidence := 1, detail := "force too low" })
      analytics := true }
    "s1" { id := "s1" }).2 1
    (fun _ _ => { passed := false, confidence := 1, detail := "force too low" })
    rfl rfl rfl
  simpa using h

/-- `complete_human_step` only touches the step states, the clock and the
human event: the stop flag, engine state, graph and step index are
untouched. -/
theorem completeHumanStep_preserves (b : Bool) (analytics : Bool) (s : Seq) :
    (completeHumanStep b analytics s).2.stop_requested = s.stop_requested ∧
    (completeHumanStep b analytics s).2.state = s.state ∧
    (completeHumanStep b analytics s).2.graph = s.graph ∧
    (completeHumanStep b analytics s).2.step_index = s.step_index := by
  unfold completeHumanStep
  split
  · exact ⟨rfl, rfl, rfl, rfl⟩
  · split
    · exact ⟨rfl, rfl, rfl, rfl⟩
    · split
      · exact ⟨rfl, rfl, rfl, rfl⟩
      · exact ⟨rfl, rfl, rfl, rfl⟩

/-- **C4** — From WAITING_FOR_HUMAN, `complete_human_step(True)` and
`complete_human_step(False)` both unblock the run and advance it to the
next step index: (i) either decision sets the human-done event, (ii) the
step's runtime status becomes "success" for `True` and "failed" for
`False`, and (iii) the run proceeds with the remaining steps from index
`i + 1` (reaching completion there if no steps remain). -/
theorem human_completion_advances (env : SeqEnv) (human : String → Bool)
    (sid : String) (rest : List String) (i : ℕ) (s : Seq)
    (hsr : s.stop_requested = false)
    (hesc : (stepBody env i sid s).exit = .escalated)
    (hstate : (stepBody env i sid s).seq.state = .WAITING_FOR_HUMAN)
    (hsr1 : (stepBody env i sid s).seq.stop_requested = false)
    (hidx : (stepBody env i sid s).seq.graph.step_order.get?
      (stepBody env i sid s).seq.step_index = some sid) :
    (completeHumanStep (human sid) env.analytics
        (stepBody env i sid s).seq).2.human_done = true ∧
    ((dictGet (completeHumanStep (human sid) env.analytics
        (stepBody env i sid s).seq).2.step_states sid).map
      (fun st => st.status)) =
        some (if human sid then "success" else "failed") ∧
    runFrom env human (sid :: rest) i s =
      ((stepBody env i sid s).trace ++
       (completeHumanStep (human sid) env.analytics
         (stepBody env i sid s).seq).1 ++
       (runFrom env human rest (i + 1)
         (completeHumanStep (human sid) env.analytics
           (stepBody env i sid s).seq).2).1,
       (runFrom env human rest (i + 1)
         (completeHumanStep (human sid) env.analytics
           (stepBody env i sid s).seq).2).2) := by
  have hnn : ¬(stepBody env i sid s).seq.state ≠ SequencerState.WAITING_FOR_HUMAN :=
    fun hc => hc hstate
  refine ⟨?_, ?_, ?_⟩
  · unfold completeHumanStep
    rw [if_neg hnn, hidx]
    cases hb : human sid <;> rfl
  · unfold completeHumanStep
    rw [if_neg hnn, hidx]
    cases hb : human sid <;> simp [dictGet_dictInsert_self]
  · have hpres := completeHumanStep_preserves (human sid) env.analytics
      (stepBody env i sid s).seq
    simp only [runFrom]
    rw [if_neg (by simp [hsr])]
    rw [hesc]
    cases hch : completeHumanStep (human sid) env.analytics
        (stepBody env i sid s).seq with
    | mk t2 s2 =>
      rw [hch] at hpres
      have hs2 : ¬s2.stop_requested = true := by
        rw [hpres.1, hsr1]
        exact Bool.false_ne_true
      dsimp only
      rw [if_neg hs2]

/-- Closed witness for `human_completion_advances`: a one-step assembly
whose only step always fails with `max_retries = 0` escalates, the
operator answers `False`, and the run still advances past the step and
completes. -/
theorem human_completion_advances_witness :
    (runFrom
        { dispatch := fun _ _ =>
            { success := false, duration_ms := 1, handler_used := "primitive" }
          verifier := none
          analytics := true }
        (fun _ => false) ["s1"] 0
        { graph :=
            { id := "asm"
              steps := [("s1", { id := "s1", max_retries := 0 })]
              step_order := ["s1"] }
          state := .STEP_ACTIVE }).2.state = SequencerState.COMPLETE := by
  have h := (human_completion_advances
    { dispatch := fun _ _ =>
        { success := false, duration_ms := 1, handler_used := "primitive" }
      verifier := none
      analytics := true }
    (fun _ => false) "s1" [] 0
    { graph :=
        { id := "asm"
          steps := [("s1", { id := "s1", max_retries := 0 })]
          step_order := ["s1"] }
      state := .STEP_ACTIVE }
    rfl (by decide) (by decide) (by decide) (by decide)).2.2
  rw [h]
  decide

end Aura
